import Mathlib

/-!
Configuration store, logger and application lifecycle.

A shallow embedding of `include/core/Config.hpp`, `include/core/Logger.hpp`,
`include/core/App.hpp` and `src/main.cpp`, followed by the properties of the
embedded program.

Modelling conventions.

* `std::unordered_map<std::string, Value>` is a list of key/value entries whose
  keys are pairwise distinct (the invariant is carried by the store).  The
  iteration order of the container is never observed by the program.
* `std::variant<int, float, std::string, bool>` is a four-constructor sum.  The
  program never computes with the payloads, it only stores and copies them, so
  an `int` payload is an integer and a `float` payload is its object
  representation.
* The two process-wide singletons (`Config::getInstance()`,
  `Logger::getInstance()`) and the standard streams form the global state
  `World`, passed explicitly.
* Exceptions are explicit results.  Allocation failure is not modelled and the
  standard streams are assumed to stay in a good state.
* Whether a file can be opened and whether a write to an open file is carried
  out are decided by the environment.
-/

namespace core

/-! ## Config.hpp -/

/-- The alternatives of `Config::Value`, in declaration order:
`std::variant<int, float, std::string, bool>`. -/
inductive Ty where
  | int
  | float
  | string
  | bool
  deriving DecidableEq, Repr

/-- A `float` object, identified by its 32-bit object representation.  The
program only stores and copies such objects. -/
structure CFloat where
  bits : Fin 4294967296
  deriving DecidableEq, Repr

/-- The type `Config::Value`: exactly one alternative is active. -/
inductive Value where
  | int (i : Int)
  | float (f : CFloat)
  | string (s : String)
  | bool (b : Bool)
  deriving DecidableEq, Repr

/-- The C++ type selected by a template argument `T` of `getValue<T>`. -/
@[reducible] def Ty.denote : Ty → Type
  | .int => Int
  | .float => CFloat
  | .string => String
  | .bool => Bool

/-- The active alternative of a variant (`std::variant::index`). -/
def Value.index : Value → Ty
  | .int _ => .int
  | .float _ => .float
  | .string _ => .string
  | .bool _ => .bool

/-- The variant holding `x` as its alternative `T` (a `Value` built from a `T`). -/
def Value.ofTy : (T : Ty) → T.denote → Value
  | .int, x => .int x
  | .float, x => .float x
  | .string, x => .string x
  | .bool, x => .bool x

/-- The library function `std::get_if<T>(&v)`: the payload when the active
alternative is `T`, a null pointer (`none`) otherwise. -/
def get_if : (T : Ty) → Value → Option T.denote
  | .int, .int i => some i
  | .float, .float f => some f
  | .string, .string s => some s
  | .bool, .bool b => some b
  | _, _ => none

/-- The keys of a list of entries. -/
def keysOf (l : List (String × Value)) : List String :=
  l.map Prod.fst

/-- The statement `m[key] = value` on the entries of a map: the entry of `key`
is overwritten when there is one, and a new entry is added otherwise. -/
def assign (key : String) (value : Value) :
    List (String × Value) → List (String × Value)
  | [] => [(key, value)]
  | e :: es => if e.1 = key then (e.1, value) :: es else e :: assign key value es

/-- The member `m_settings.find(key)` on the entries of a map: the entry of
`key`, or `none` for the past-the-end iterator. -/
def findEntry (key : String) : List (String × Value) → Option (String × Value)
  | [] => none
  | e :: es => if e.1 = key then some e else findEntry key es

theorem keysOf_assign (key : String) (value : Value) (l : List (String × Value)) :
    keysOf (assign key value l) =
      if key ∈ keysOf l then keysOf l else keysOf l ++ [key] := by
  induction l with
  | nil => simp [assign, keysOf]
  | cons e es ih =>
    unfold keysOf at ih ⊢
    by_cases h : e.1 = key
    · simp [assign, h]
    · have h2 : ¬ key = e.1 := fun h3 => h h3.symm
      simp only [assign, h, if_false, List.map_cons, List.mem_cons, h2, false_or, ih]
      split <;> simp

theorem nodup_assign (key : String) (value : Value) (l : List (String × Value))
    (h : (keysOf l).Nodup) : (keysOf (assign key value l)).Nodup := by
  rw [keysOf_assign]
  split
  · exact h
  · rename_i hk
    rw [List.nodup_append]
    refine ⟨h, List.nodup_singleton key, ?_⟩
    intro a ha hb
    simp only [List.mem_singleton] at hb
    subst hb
    exact hk ha

/-- The class `Config`: `m_settings`, with the container's guarantee that keys
are unique. -/
structure Config where
  m_settings : List (String × Value)
  nodup : (keysOf m_settings).Nodup

namespace Config

/-- The store as `Config() = default` leaves it: no settings. -/
def empty : Config :=
  ⟨[], List.nodup_nil⟩

/-- The call `m_settings.find(key)`. -/
def find (c : Config) (key : String) : Option (String × Value) :=
  findEntry key c.m_settings

/-- The member `void setValue(const std::string& key, const Value& value)`:
`m_settings[key] = value;`. -/
def setValue (c : Config) (key : String) (value : Value) : Config :=
  ⟨assign key value c.m_settings, nodup_assign key value c.m_settings c.nodup⟩

/-- The member `template<typename T> T getValue(const std::string& key, const T& defaultValue) const`. -/
def getValue (c : Config) (T : Ty) (key : String) (defaultValue : T.denote) : T.denote :=
  match c.find key with
  | some it =>
    match get_if T it.2 with
    | some value => value
    | none => defaultValue
  | none => defaultValue

/-- The number of settings stored under `key` (`m_settings.count(key)`). -/
def count (c : Config) (key : String) : Nat :=
  (keysOf c.m_settings).count key

/-- The number of settings (`m_settings.size()`). -/
def size (c : Config) : Nat :=
  c.m_settings.length

end Config

/-! ## Logger.hpp -/

/-- The type `enum class LogLevel`. -/
inductive LogLevel where
  | Debug
  | Info
  | Warning
  | Error
  deriving DecidableEq, Repr

/-- The state of a `std::ofstream` that the program can observe: the file it is
associated with (`is_open()` holds exactly when there is one) and whether its
state differs from `goodbit`. -/
structure OFStream where
  file : Option String
  failed : Bool
  deriving DecidableEq, Repr

/-- The member `is_open()`. -/
def OFStream.is_open (s : OFStream) : Bool :=
  s.file.isSome

/-- The member `open(filename, std::ios::app)`.  The library specifies it as:
`rdbuf()->open` returns a null pointer when a file is already open and when the
file cannot be opened, and then `setstate(failbit)` is called; otherwise the
stream is associated with the file and `clear()` is called.  `openable` tells
whether the environment lets the file be opened for appending. -/
def OFStream.open (openable : String → Bool) (s : OFStream) (filename : String) : OFStream :=
  if s.is_open then { s with failed := true }
  else if openable filename then { file := some filename, failed := false }
  else { s with failed := true }

/-- Whether the operating system carries out a write: given the writes made to
files so far, the path of the file and the data, `true` when the data reaches
the file and `false` when the write fails (a full disk, a file-size limit). -/
abbrev Writable : Type :=
  List (String × String) → String → String → Bool

/-- The statements `s << data; s.flush();`.  An inserter first checks `good()`
and writes nothing when the check fails.  On a good stream the data goes to the
file; when the write succeeds the data is appended and the stream stays good,
and when it fails nothing is appended and `badbit` is set.  `files` is the
sequence of writes made to files so far, each with the path of the file it
went to. -/
def OFStream.write (writable : Writable) (s : OFStream) (files : List (String × String))
    (data : String) : OFStream × List (String × String) :=
  match s.failed, s.file with
  | false, some p =>
    if writable files p data then (s, files ++ [(p, data)])
    else ({ s with failed := true }, files)
  | _, _ => ({ s with failed := true }, files)

/-- The text written so far to standard output and to standard error, and the
writes made to files, oldest first. -/
structure Streams where
  cout : String
  cerr : String
  files : List (String × String)
  deriving DecidableEq, Repr

/-- The class `Logger`: `m_logFile` (`m_mutex` only serialises callers and has
no part in a single thread of control).  `Logger() = default` leaves the stream
closed and good. -/
structure Logger where
  m_logFile : OFStream := { file := none, failed := false }
  deriving DecidableEq, Repr

namespace Logger

/-- The member `void setLogFile(const std::string& filename)`. -/
def setLogFile (openable : String → Bool) (lg : Logger) (filename : String) : Logger :=
  { lg with m_logFile := lg.m_logFile.open openable filename }

/-- The `switch` of `log` that names the level. -/
def levelStr : LogLevel → String
  | .Debug => "DEBUG"
  | .Info => "INFO"
  | .Warning => "WARNING"
  | .Error => "ERROR"

/-- The local `logMessage` of `log`. -/
def logMessage (level : LogLevel) (message : String) : String :=
  "[" ++ levelStr level ++ "] " ++ message ++ "\n"

/-- The member `void log(LogLevel level, const std::string& message)`. -/
def log (writable : Writable) (lg : Logger) (io : Streams) (level : LogLevel)
    (message : String) : Logger × Streams :=
  let io1 : Streams := { io with cout := io.cout ++ logMessage level message }
  if lg.m_logFile.is_open then
    let r := lg.m_logFile.write writable io1.files (logMessage level message)
    ({ lg with m_logFile := r.1 }, { io1 with files := r.2 })
  else (lg, io1)

/-- A sequence of `log` calls, in order. -/
def logAll (writable : Writable) (lg : Logger) (io : Streams) :
    List (LogLevel × String) → Logger × Streams
  | [] => (lg, io)
  | r :: rs =>
    logAll writable (lg.log writable io r.1 r.2).1 (lg.log writable io r.1 r.2).2 rs

end Logger

/-! ## App.hpp and main.cpp -/

/-- What a `throw` can carry, as the handlers of `main` tell them apart: an
object derived from `std::exception`, with the text `what()` returns, or
anything else. -/
inductive Exn where
  | exception (what : String)
  | other
  deriving DecidableEq, Repr

/-- What the program takes from outside its source text.

* `openable`: whether a path can be opened for appending.
* `writable`: whether a write to an open file is carried out.
* `loadFromFile`, `saveToFile`: the two members of `Config` that are declared
  in `Config.hpp` and defined nowhere.  `loadFromFile` is not `const`: it gives
  the store it leaves behind and the exception it exits with, if any.
  `saveToFile` is `const`: it gives the exception it exits with, if any.
* `elapsed`: the value of `duration.count()` in `run`, the milliseconds between
  the two readings of `std::chrono::steady_clock`. -/
structure Env where
  openable : String → Bool
  writable : Writable
  loadFromFile : String → Config → Config × Option Exn
  saveToFile : String → Config → Option Exn
  elapsed : Int

/-- The global state: the two singletons and the streams. -/
structure World where
  config : Config
  logger : Logger
  io : Streams

/-- The call `Logger::getInstance().log(level, msg)` on the global state. -/
def World.log (writable : Writable) (w : World) (level : LogLevel) (msg : String) : World :=
  { w with
    logger := (w.logger.log writable w.io level msg).1
    io := (w.logger.log writable w.io level msg).2 }

/-- The macro `#define LOG_DEBUG(msg) Logger::getInstance().log(LogLevel::Debug, msg)`. -/
def LOG_DEBUG (writable : Writable) (w : World) (msg : String) : World :=
  w.log writable .Debug msg

/-- The macro `#define LOG_INFO(msg) Logger::getInstance().log(LogLevel::Info, msg)`. -/
def LOG_INFO (writable : Writable) (w : World) (msg : String) : World :=
  w.log writable .Info msg

/-- The library function `std::to_string` on a signed integer: its decimal
digits, after a minus sign when it is negative. -/
def to_string (n : Int) : String :=
  toString n

/-- The class `App`: `std::string m_name{"ProfessionalCppProject"}`. -/
structure App where
  m_name : String := "ProfessionalCppProject"
  deriving DecidableEq, Repr

/-- The member `void initialize()`.  The result is the application object when the call
returns and the exception when it exits by one, with the global state left. -/
def App.initialize (env : Env) (app : App) (w : World) : Except Exn App × World :=
  let w1 := LOG_INFO env.writable w "Initializing application..."
  match env.loadFromFile "config.json" w1.config with
  | (c, some e) => (.error e, { w1 with config := c })
  | (c, none) =>
    let w2 : World := { w1 with config := c }
    let w3 : World := { w2 with logger := w2.logger.setLogFile env.openable "app.log" }
    let app1 : App :=
      { app with m_name := w3.config.getValue .string "app.name" "ProfessionalCppProject" }
    (.ok app1, LOG_INFO env.writable w3 "Application initialized successfully")

/-- The body of the loop of `run` for the value `i` of its counter. -/
def App.iteration (env : Env) (w : World) (i : Nat) : World :=
  LOG_INFO env.writable w ("Processing iteration " ++ to_string ((i : Int) + 1))

/-- The member `void run()`.  The loop `for (int i = 0; i < 5; ++i)` runs its body for
`i = 0, 1, 2, 3, 4`; the pause only lets time pass. -/
def App.run (env : Env) (app : App) (w : World) : App × World :=
  let w1 := LOG_INFO env.writable w ("Running application: " ++ app.m_name)
  let debugMode := w1.config.getValue .bool "app.debug" false
  let w2 := if debugMode then LOG_DEBUG env.writable w1 "Debug mode is enabled" else w1
  let w3 := (List.range 5).foldl (App.iteration env) w2
  (app, LOG_INFO env.writable w3 ("Application ran for " ++ to_string env.elapsed ++ "ms"))

/-- The member `void shutdown()`. -/
def App.shutdown (env : Env) (app : App) (w : World) : Except Exn App × World :=
  let w1 := LOG_INFO env.writable w "Shutting down application..."
  match env.saveToFile "config.json" w1.config with
  | some e => (.error e, w1)
  | none => (.ok app, LOG_INFO env.writable w1 "Application shutdown complete")

/-- The `try` block of `main`: the value it returns, or the exception that
leaves it, with the global state left. -/
def mainTry (env : Env) (w : World) : Except Exn Int × World :=
  let app : App := {}
  match App.initialize env app w with
  | (.error e, w1) => (.error e, w1)
  | (.ok app1, w1) =>
    match App.shutdown env (App.run env app1 w1).1 (App.run env app1 w1).2 with
    | (.error e, w3) => (.error e, w3)
    | (.ok _, w3) => (.ok 0, w3)

/-- The two handlers of `main`: `catch (const std::exception& e)` and
`catch (...)`. -/
def mainCatch (e : Exn) (w : World) : Int × World :=
  match e with
  | .exception what =>
    (1, { w with io := { w.io with cerr := w.io.cerr ++ "Fatal error: " ++ what ++ "\n" } })
  | .other =>
    (1, { w with io := { w.io with cerr := w.io.cerr ++ "Unknown fatal error occurred" ++ "\n" } })

/-- The function `int main()`: the exit code and the global state left. -/
def main (env : Env) (w : World) : Int × World :=
  match mainTry env w with
  | (.ok code, w1) => (code, w1)
  | (.error e, w1) => mainCatch e w1

/-! ## Vocabulary of the properties -/

/-- The number of line terminators in a text. -/
def lineCount (s : String) : Nat :=
  s.data.count (Char.ofNat 10)

/-- The text a sequence of log records puts on a stream: one
`[LEVELNAME] message` and a line terminator for each, in order. -/
def render : List (LogLevel × String) → String
  | [] => ""
  | r :: rs => Logger.logMessage r.1 r.2 ++ render rs

/-- A sequence of log records emitted on the global state, in order. -/
def World.logAll (writable : Writable) (w : World) (rs : List (LogLevel × String)) : World :=
  rs.foldl (fun v r => v.log writable r.1 r.2) w

/-- The log records of `run()` as the specification lists them, for the display
name `n`, for whether the store holds the boolean `true` under `app.debug`, and
for the measured duration `d`. -/
def runRecords (n : String) (debug : Bool) (d : Int) : List (LogLevel × String) :=
  [(LogLevel.Info, "Running application: " ++ n)] ++
  (if debug then [(LogLevel.Debug, "Debug mode is enabled")] else []) ++
  [(LogLevel.Info, "Processing iteration 1"),
   (LogLevel.Info, "Processing iteration 2"),
   (LogLevel.Info, "Processing iteration 3"),
   (LogLevel.Info, "Processing iteration 4"),
   (LogLevel.Info, "Processing iteration 5")] ++
  [(LogLevel.Info, "Application ran for " ++ toString d ++ "ms")]

/-- Whether the store holds the boolean `true` under `app.debug`. -/
def debugEnabled (c : Config) : Bool :=
  decide (c.find "app.debug" = some ("app.debug", Value.bool true))

/-- The report of the entry point on standard error, as the specification
words it: `Fatal error: <message>` for a recoverable error carrying a message,
`Unknown fatal error occurred` for any other failure, and a line terminator. -/
def fatalReport : Exn → String
  | .exception m => "Fatal error: " ++ m ++ "\n"
  | .other => "Unknown fatal error occurred\n"

/-- The global state in which `shutdown()` starts when `loadFromFile` returned
with the store `c`. -/
def beforeShutdown (env : Env) (w : World) (c : Config) : World :=
  (World.log env.writable
    { config := c
      logger :=
        (w.log env.writable LogLevel.Info "Initializing application...").logger.setLogFile
          env.openable "app.log"
      io := (w.log env.writable LogLevel.Info "Initializing application...").io }
    LogLevel.Info "Application initialized successfully").logAll env.writable
    (runRecords (c.getValue Ty.string "app.name" "ProfessionalCppProject") (debugEnabled c)
      env.elapsed)

/-! ## Properties of the configuration store -/

theorem findEntry_eq_none (key : String) (l : List (String × Value)) :
    findEntry key l = none ↔ key ∉ keysOf l := by
  induction l with
  | nil => simp [findEntry, keysOf]
  | cons e es ih =>
    unfold keysOf at ih ⊢
    by_cases h : e.1 = key
    · simp [findEntry, h]
    · have h2 : ¬ key = e.1 := fun h3 => h h3.symm
      simp [findEntry, h, h2, ih]

theorem findEntry_assign_self (key : String) (value : Value) (l : List (String × Value)) :
    findEntry key (assign key value l) = some (key, value) := by
  induction l with
  | nil => simp [findEntry, assign]
  | cons e es ih =>
    by_cases h : e.1 = key
    · simp [findEntry, assign, h]
    · simp [findEntry, assign, h, ih]

theorem findEntry_assign_ne (key other : String) (value : Value)
    (l : List (String × Value)) (h : other ≠ key) :
    findEntry other (assign key value l) = findEntry other l := by
  induction l with
  | nil =>
    have h2 : ¬ key = other := fun h3 => h h3.symm
    simp [findEntry, assign, h2]
  | cons e es ih =>
    by_cases hk : e.1 = key
    · have h2 : ¬ e.1 = other := fun h3 => h (h3.symm.trans hk)
      have h3 : ¬ key = other := fun h4 => h h4.symm
      simp [findEntry, assign, hk, h2, h3]
    · by_cases ho : e.1 = other
      · simp [findEntry, assign, hk, ho, h]
      · simp [findEntry, assign, hk, ho, ih]

theorem assign_assign (key : String) (v1 v2 : Value) (l : List (String × Value)) :
    assign key v2 (assign key v1 l) = assign key v2 l := by
  induction l with
  | nil => simp [assign]
  | cons e es ih =>
    by_cases h : e.1 = key
    · simp [assign, h]
    · simp [assign, h, ih]

theorem length_assign (key : String) (value : Value) (l : List (String × Value)) :
    (assign key value l).length = if key ∈ keysOf l then l.length else l.length + 1 := by
  have h := congrArg List.length (keysOf_assign key value l)
  unfold keysOf at h ⊢
  rw [List.length_map] at h
  rw [h]
  split <;> simp

theorem Config.eq_of_settings (a b : Config) (h : a.m_settings = b.m_settings) : a = b := by
  cases a
  cases b
  simp only at h
  subst h
  rfl

theorem Config.find_setValue_self (s : Config) (k : String) (v : Value) :
    (s.setValue k v).find k = some (k, v) :=
  findEntry_assign_self k v s.m_settings

theorem Config.find_setValue_ne (s : Config) (k other : String) (v : Value)
    (h : other ≠ k) : (s.setValue k v).find other = s.find other :=
  findEntry_assign_ne k other v s.m_settings h

theorem get_if_index_ne (U : Ty) (v : Value) (h : U ≠ v.index) : get_if U v = none := by
  cases U <;> cases v <;> simp_all [get_if, Value.index]

theorem get_if_ofTy (T : Ty) (x : T.denote) : get_if T (Value.ofTy T x) = some x := by
  cases T <;> rfl

theorem Config.getValue_of_find (s : Config) (T : Ty) (k : String) (d : T.denote)
    (e : String × Value) (h : s.find k = some e) :
    s.getValue T k d = (get_if T e.2).getD d := by
  unfold Config.getValue
  rw [h]
  show (match get_if T e.2 with
    | some value => value
    | none => d) = _
  cases get_if T e.2 <;> rfl

theorem Config.getValue_of_mismatch (t : Config) (k : String) (v : Value) (U : Ty)
    (d : U.denote) (h : U ≠ v.index) (ht : t.find k = some (k, v)) :
    t.getValue U k d = d := by
  rw [Config.getValue_of_find t U k d (k, v) ht, get_if_index_ne U v h]
  rfl

/-- C1: a key set to a value whose active alternative is not `U` answers a
lookup typed as `U` with the default, as an absent key does: both on the store
right after the `setValue`, and on every store that holds that value for the
key. -/
theorem getValue_type_mismatch (s : Config) (k : String) (v : Value) (U : Ty)
    (d : U.denote) (h : U ≠ v.index) :
    (s.setValue k v).getValue U k d = d ∧
    (s.setValue k v).getValue U k d = Config.empty.getValue U k d ∧
    ∀ t : Config, t.find k = some (k, v) → t.getValue U k d = d := by
  have key : ∀ t : Config, t.find k = some (k, v) → t.getValue U k d = d :=
    fun t ht => Config.getValue_of_mismatch t k v U d h ht
  exact ⟨key _ (Config.find_setValue_self s k v), (key _ (Config.find_setValue_self s k v)).trans rfl, key⟩

/-- C1 at a concrete input: the key `"k"` set to the integer 1 and queried as a
boolean with default `false`, and as a floating-point number. -/
theorem getValue_type_mismatch_witness :
    Ty.bool ≠ (Value.int 1).index ∧
    (Config.empty.setValue "k" (Value.int 1)).getValue Ty.bool "k" false = false ∧
    (Config.empty.setValue "k" (Value.int 1)).getValue Ty.float "k" ⟨7⟩ = ⟨7⟩ :=
  ⟨by decide,
   (getValue_type_mismatch Config.empty "k" (Value.int 1) Ty.bool false (by decide)).1,
   (getValue_type_mismatch Config.empty "k" (Value.int 1) Ty.float ⟨7⟩ (by decide)).1⟩

/-- C2: after `setValue(k, v)` with `v` of type `T`, `getValue<T>(k, d)` is `v`,
for every default `d` and whatever the store held before. -/
theorem getValue_setValue (s : Config) (k : String) (T : Ty) (x d : T.denote) :
    (s.setValue k (Value.ofTy T x)).getValue T k d = x := by
  rw [Config.getValue_of_find _ T k d _ (Config.find_setValue_self s k _), get_if_ofTy]
  rfl

/-- C3: a lookup of a key that is not in the store gives the default, for every
requested type; `getValue` is a total function, and on the empty store every
lookup gives its default. -/
theorem getValue_absent (s : Config) (k : String) (T : Ty) (d : T.denote)
    (h : k ∉ keysOf s.m_settings) :
    s.getValue T k d = d ∧ Config.empty.getValue T k d = d := by
  have h2 : s.find k = none := (findEntry_eq_none k s.m_settings).2 h
  constructor
  · unfold Config.getValue
    rw [h2]
  · rfl

/-- C3 at a concrete input: a store holding `"a"` only, asked for `"b"`. -/
theorem getValue_absent_witness :
    "b" ∉ keysOf (Config.empty.setValue "a" (Value.bool true)).m_settings ∧
    (Config.empty.setValue "a" (Value.bool true)).getValue Ty.bool "b" false = false :=
  ⟨by decide,
   (getValue_absent (Config.empty.setValue "a" (Value.bool true)) "b" Ty.bool false
     (by decide)).1⟩

/-- C4: `setValue` is last-write-wins per key.  Two writes to `k` leave the
store that the second write alone leaves; it holds one Setting for `k`, with
the value of the second write, and a lookup typed as the first value answers
the default when the two types differ. -/
theorem setValue_setValue (s : Config) (k : String) (v1 v2 : Value) :
    (s.setValue k v1).setValue k v2 = s.setValue k v2 ∧
    ((s.setValue k v1).setValue k v2).count k = 1 ∧
    ((s.setValue k v1).setValue k v2).find k = some (k, v2) ∧
    ∀ d : v1.index.denote, v1.index ≠ v2.index →
      ((s.setValue k v1).setValue k v2).getValue v1.index k d = d := by
  refine ⟨?_, ?_, ?_, ?_⟩
  · exact Config.eq_of_settings _ _ (assign_assign k v1 v2 s.m_settings)
  · unfold Config.count
    apply List.count_eq_one_of_mem ((s.setValue k v1).setValue k v2).nodup
    have h := Config.find_setValue_self (s.setValue k v1) k v2
    by_contra hc
    have h2 := (findEntry_eq_none k _).2 hc
    unfold Config.find at h
    rw [h2] at h
    exact Option.noConfusion h
  · exact Config.find_setValue_self _ k v2
  · intro d hne
    exact Config.getValue_of_mismatch _ k v2 v1.index d hne
      (Config.find_setValue_self (s.setValue k v1) k v2)

/-- C10: `setValue(k, v)` changes the Setting of `k` only.  Every other key
keeps its entry and the answer to every typed lookup, and the store grows by
one Setting exactly when `k` was not in it.  (`getValue` is a `const` member:
it gives a value and no store.) -/
theorem setValue_frame (s : Config) (k other : String) (v : Value) (T : Ty)
    (d : T.denote) (h : other ≠ k) :
    (s.setValue k v).getValue T other d = s.getValue T other d ∧
    (s.setValue k v).find other = s.find other ∧
    (s.setValue k v).count other = s.count other ∧
    (s.setValue k v).size = if k ∈ keysOf s.m_settings then s.size else s.size + 1 := by
  have hf := Config.find_setValue_ne s k other v h
  refine ⟨?_, hf, ?_, length_assign k v s.m_settings⟩
  · unfold Config.getValue
    rw [hf]
  · unfold Config.count Config.setValue
    simp only
    rw [keysOf_assign]
    split
    · rfl
    · rw [List.count_append]
      have h2 : List.count other [k] = 0 := by
        rw [List.count_eq_zero]
        simpa using h
      rw [h2, Nat.add_zero]

/-- C10 at a concrete input: writing `"b"` leaves the integer under `"a"`. -/
theorem setValue_frame_witness :
    "a" ≠ "b" ∧
    ((Config.empty.setValue "a" (Value.int 3)).setValue "b" (Value.bool true)).getValue
      Ty.int "a" 0 = 3 :=
  ⟨by decide,
   (setValue_frame (Config.empty.setValue "a" (Value.int 3)) "b" "a" (Value.bool true)
     Ty.int 0 (by decide)).1.trans (by decide)⟩

/-! ## Properties of the logger -/

theorem lineCount_append (a b : String) : lineCount (a ++ b) = lineCount a + lineCount b := by
  unfold lineCount
  rw [String.data_append, List.count_append]

theorem lineCount_levelStr (level : LogLevel) : lineCount (Logger.levelStr level) = 0 := by
  cases level <;> decide

theorem lineCount_logMessage (level : LogLevel) (message : String) :
    lineCount (Logger.logMessage level message) = lineCount message + 1 := by
  unfold Logger.logMessage
  simp only [lineCount_append, lineCount_levelStr]
  have h1 : lineCount "[" = 0 := by decide
  have h2 : lineCount "] " = 0 := by decide
  have h3 : lineCount "\n" = 1 := by decide
  omega

theorem Logger.log_cout (wr : Writable) (lg : Logger) (io : Streams) (level : LogLevel)
    (message : String) :
    (lg.log wr io level message).2.cout = io.cout ++ Logger.logMessage level message := by
  unfold Logger.log
  split <;> rfl

theorem Logger.log_cerr (wr : Writable) (lg : Logger) (io : Streams) (level : LogLevel)
    (message : String) : (lg.log wr io level message).2.cerr = io.cerr := by
  unfold Logger.log
  split <;> rfl

theorem Logger.log_files_closed (wr : Writable) (lg : Logger) (io : Streams)
    (level : LogLevel) (message : String) (h : lg.m_logFile.is_open = false) :
    (lg.log wr io level message).2.files = io.files := by
  unfold Logger.log
  simp [h]

theorem Logger.log_logger_closed (wr : Writable) (lg : Logger) (io : Streams)
    (level : LogLevel) (message : String) (h : lg.m_logFile.is_open = false) :
    (lg.log wr io level message).1 = lg := by
  unfold Logger.log
  simp [h]

theorem Logger.log_files_good (wr : Writable) (lg : Logger) (io : Streams)
    (level : LogLevel) (message : String) (p : String)
    (hp : lg.m_logFile.file = some p) (hg : lg.m_logFile.failed = false)
    (hw : wr io.files p (Logger.logMessage level message) = true) :
    (lg.log wr io level message).2.files =
      io.files ++ [(p, Logger.logMessage level message)] ∧
    (lg.log wr io level message).1 = lg := by
  obtain ⟨⟨file, failed⟩⟩ := lg
  simp only at hp hg
  subst hp
  subst hg
  simp [Logger.log, OFStream.is_open, OFStream.write, hw]

theorem render_append (a b : List (LogLevel × String)) :
    render (a ++ b) = render a ++ render b := by
  induction a with
  | nil => simp [render]
  | cons r rs ih => simp [render, ih, String.append_assoc]

theorem Logger.logAll_cout (wr : Writable) (lg : Logger) (io : Streams)
    (rs : List (LogLevel × String)) :
    (lg.logAll wr io rs).2.cout = io.cout ++ render rs := by
  induction rs generalizing lg io with
  | nil => simp [Logger.logAll, render]
  | cons r rs ih =>
    simp only [Logger.logAll, ih, Logger.log_cout, render, String.append_assoc]

theorem Logger.logAll_cerr (wr : Writable) (lg : Logger) (io : Streams)
    (rs : List (LogLevel × String)) : (lg.logAll wr io rs).2.cerr = io.cerr := by
  induction rs generalizing lg io with
  | nil => rfl
  | cons r rs ih => simp only [Logger.logAll, ih, Logger.log_cerr]

theorem Logger.logAll_logger_closed (wr : Writable) (lg : Logger) (io : Streams)
    (rs : List (LogLevel × String)) (h : lg.m_logFile.is_open = false) :
    (lg.logAll wr io rs).1 = lg := by
  induction rs generalizing io with
  | nil => rfl
  | cons r rs ih => simp only [Logger.logAll, Logger.log_logger_closed wr lg _ _ _ h, ih]

theorem Logger.logAll_files_closed (wr : Writable) (lg : Logger) (io : Streams)
    (rs : List (LogLevel × String)) (h : lg.m_logFile.is_open = false) :
    (lg.logAll wr io rs).2.files = io.files := by
  induction rs generalizing io with
  | nil => rfl
  | cons r rs ih =>
    simp only [Logger.logAll, Logger.log_logger_closed wr lg _ _ _ h, ih,
      Logger.log_files_closed wr lg _ _ _ h]

/-- C5, as it fails: a message that holds a line terminator makes one call of
`log` put two lines on standard output; a logger whose file is open after a
second `setLogFile` was refused has `is_open()` true and appends nothing to the
file; and a logger whose file is open and whose stream is good appends nothing
when the write to the file fails. -/
theorem log_not_one_line :
    lineCount ((Logger.log (fun _ _ _ => true) {} ⟨"", "", []⟩ LogLevel.Info
      "a\nb").2.cout) = 2 ∧
    (Logger.setLogFile (fun _ => true) (Logger.setLogFile (fun _ => true) {} "a.log")
        "b.log").m_logFile.is_open = true ∧
    ((Logger.setLogFile (fun _ => true) (Logger.setLogFile (fun _ => true) {} "a.log")
        "b.log").log (fun _ _ _ => true) ⟨"", "", []⟩ LogLevel.Info "x").2.files = [] ∧
    (Logger.setLogFile (fun _ => true) {} "lim.log").m_logFile = ⟨some "lim.log", false⟩ ∧
    ((Logger.setLogFile (fun _ => true) {} "lim.log").log (fun _ _ _ => false) ⟨"", "", []⟩
        LogLevel.Info "x").2.files = [] := by
  decide

/-- C5, amended: for every level and every message, one call of `log` appends
`[LEVELNAME] msg` and a line terminator to standard output and leaves standard
error as it was; that text is one line when the message holds no line
terminator.  When no file is open nothing is written to a file; when a file is
open, its stream is in a good state and the write succeeds, the same text is
appended to the file; in both cases the logger is left as it was. -/
theorem log_appends_one_line (writable : Writable) (lg : Logger) (io : Streams)
    (level : LogLevel) (msg : String) :
    (lg.log writable io level msg).2.cout =
      io.cout ++ ("[" ++ (match level with
        | .Debug => "DEBUG"
        | .Info => "INFO"
        | .Warning => "WARNING"
        | .Error => "ERROR") ++ "] " ++ msg ++ "\n") ∧
    (lg.log writable io level msg).2.cerr = io.cerr ∧
    lineCount (lg.log writable io level msg).2.cout =
      lineCount io.cout + lineCount msg + 1 ∧
    (lineCount msg = 0 →
      lineCount (Logger.logMessage level msg) = 1 ∧
      lineCount (lg.log writable io level msg).2.cout = lineCount io.cout + 1) ∧
    (lg.m_logFile.is_open = false →
      (lg.log writable io level msg).2.files = io.files ∧
      (lg.log writable io level msg).1 = lg) ∧
    (∀ p, lg.m_logFile.file = some p → lg.m_logFile.failed = false →
      writable io.files p (Logger.logMessage level msg) = true →
      (lg.log writable io level msg).2.files =
        io.files ++ [(p, Logger.logMessage level msg)] ∧
      (lg.log writable io level msg).1 = lg) := by
  have h1 := lineCount_logMessage level msg
  have h2 : lineCount (lg.log writable io level msg).2.cout =
      lineCount io.cout + lineCount msg + 1 := by
    rw [Logger.log_cout, lineCount_append, h1, Nat.add_assoc]
  refine ⟨?_, Logger.log_cerr writable lg io level msg, h2, ?_, ?_, ?_⟩
  · rw [Logger.log_cout]
    cases level <;> rfl
  · intro hmsg
    rw [hmsg] at h1 h2
    exact ⟨h1, h2⟩
  · intro hc
    exact ⟨Logger.log_files_closed writable lg io level msg hc,
      Logger.log_logger_closed writable lg io level msg hc⟩
  · intro p hp hg hw
    exact Logger.log_files_good writable lg io level msg p hp hg hw

/-- C5 amended, at a concrete input: a warning logged with `app.log` open, the
stream good and the write carried out. -/
theorem log_appends_one_line_witness :
    lineCount "disk low" = 0 ∧
    (Logger.log (fun _ _ _ => true) ⟨⟨some "app.log", false⟩⟩ ⟨"", "", []⟩
      LogLevel.Warning "disk low").2.cout = "[WARNING] disk low\n" ∧
    lineCount (Logger.log (fun _ _ _ => true) ⟨⟨some "app.log", false⟩⟩ ⟨"", "", []⟩
      LogLevel.Warning "disk low").2.cout = 1 ∧
    (Logger.log (fun _ _ _ => true) ⟨⟨some "app.log", false⟩⟩ ⟨"", "", []⟩
      LogLevel.Warning "disk low").2.files = [("app.log", "[WARNING] disk low\n")] :=
  ⟨by decide,
   (log_appends_one_line (fun _ _ _ => true) ⟨⟨some "app.log", false⟩⟩ ⟨"", "", []⟩
     LogLevel.Warning "disk low").1.trans (by decide),
   ((log_appends_one_line (fun _ _ _ => true) ⟨⟨some "app.log", false⟩⟩ ⟨"", "", []⟩
     LogLevel.Warning "disk low").2.2.2.1 (by decide)).2.trans (by decide),
   ((log_appends_one_line (fun _ _ _ => true) ⟨⟨some "app.log", false⟩⟩ ⟨"", "", []⟩
     LogLevel.Warning "disk low").2.2.2.2.2 "app.log" rfl rfl rfl).1.trans (by decide)⟩

/-- C6: a `setLogFile` whose open fails on a logger with no open file returns
the logger with the file still closed, and reports nothing; every later
sequence of `log` calls writes to no file, leaves standard error alone, and
puts on standard output the text any other logger state would put there,
whether or not writes to files are carried out. -/
theorem setLogFile_failure_console_only (openable : String → Bool) (writable : Writable)
    (lg : Logger) (path : String) (hclosed : lg.m_logFile.is_open = false)
    (hfail : openable path = false) :
    (lg.setLogFile openable path).m_logFile.is_open = false ∧
    ∀ (io : Streams) (rs : List (LogLevel × String)),
      ((lg.setLogFile openable path).logAll writable io rs).2.files = io.files ∧
      ((lg.setLogFile openable path).logAll writable io rs).2.cerr = io.cerr ∧
      ((lg.setLogFile openable path).logAll writable io rs).2.cout = io.cout ++ render rs ∧
      ((lg.setLogFile openable path).logAll writable io rs).1.m_logFile.is_open = false ∧
      ∀ (other : Logger) (wr : Writable),
        ((lg.setLogFile openable path).logAll writable io rs).2.cout =
          (other.logAll wr io rs).2.cout := by
  have h1 : (lg.setLogFile openable path).m_logFile.is_open = false := by
    simp [Logger.setLogFile, OFStream.open, hclosed, hfail]
    exact hclosed
  refine ⟨h1, ?_⟩
  intro io rs
  refine ⟨Logger.logAll_files_closed _ _ io rs h1, Logger.logAll_cerr _ _ io rs,
    Logger.logAll_cout _ _ io rs, ?_, ?_⟩
  · rw [Logger.logAll_logger_closed _ _ io rs h1]
    exact h1
  · intro other wr
    rw [Logger.logAll_cout, Logger.logAll_cout]

/-- C6 at a concrete input: a fresh logger, no path can be opened, and an error
is logged after the failed `setLogFile("app.log")`. -/
theorem setLogFile_failure_console_only_witness :
    (Logger.setLogFile (fun _ => false) {} "app.log").m_logFile.is_open = false ∧
    ((Logger.setLogFile (fun _ => false) {} "app.log").logAll (fun _ _ _ => true)
      ⟨"", "", []⟩ [(LogLevel.Error, "boom")]).2.files = [] ∧
    ((Logger.setLogFile (fun _ => false) {} "app.log").logAll (fun _ _ _ => true)
      ⟨"", "", []⟩ [(LogLevel.Error, "boom")]).2.cout = "[ERROR] boom\n" :=
  ⟨(setLogFile_failure_console_only (fun _ => false) (fun _ _ _ => true) {} "app.log"
      rfl rfl).1,
   ((setLogFile_failure_console_only (fun _ => false) (fun _ _ _ => true) {} "app.log"
      rfl rfl).2 ⟨"", "", []⟩ [(LogLevel.Error, "boom")]).1,
   ((setLogFile_failure_console_only (fun _ => false) (fun _ _ _ => true) {} "app.log"
      rfl rfl).2 ⟨"", "", []⟩ [(LogLevel.Error, "boom")]).2.2.1.trans (by decide)⟩

/-! ## Properties of the application and of the entry point -/

theorem world_log_config (wr : Writable) (w : World) (level : LogLevel) (msg : String) :
    (w.log wr level msg).config = w.config :=
  rfl

theorem world_log_cout (wr : Writable) (w : World) (level : LogLevel) (msg : String) :
    (w.log wr level msg).io.cout = w.io.cout ++ Logger.logMessage level msg :=
  Logger.log_cout wr w.logger w.io level msg

theorem world_log_cerr (wr : Writable) (w : World) (level : LogLevel) (msg : String) :
    (w.log wr level msg).io.cerr = w.io.cerr :=
  Logger.log_cerr wr w.logger w.io level msg

theorem world_logAll_config (wr : Writable) (w : World)
    (rs : List (LogLevel × String)) : (w.logAll wr rs).config = w.config := by
  unfold World.logAll
  induction rs generalizing w with
  | nil => rfl
  | cons r rs ih => rw [List.foldl_cons, ih, world_log_config]

theorem world_logAll_cout (wr : Writable) (w : World)
    (rs : List (LogLevel × String)) : (w.logAll wr rs).io.cout = w.io.cout ++ render rs := by
  unfold World.logAll
  induction rs generalizing w with
  | nil => simp [render]
  | cons r rs ih => rw [List.foldl_cons, ih, world_log_cout, render, String.append_assoc]

theorem world_logAll_cerr (wr : Writable) (w : World)
    (rs : List (LogLevel × String)) : (w.logAll wr rs).io.cerr = w.io.cerr := by
  unfold World.logAll
  induction rs generalizing w with
  | nil => rfl
  | cons r rs ih => rw [List.foldl_cons, ih, world_log_cerr]

theorem findEntry_key (key : String) (l : List (String × Value)) (e : String × Value)
    (h : findEntry key l = some e) : e.1 = key := by
  induction l with
  | nil => simp [findEntry] at h
  | cons a as ih =>
    by_cases hk : a.1 = key
    · simp [findEntry, hk] at h
      rw [← h]
      exact hk
    · simp [findEntry, hk] at h
      exact ih h

theorem getValue_debug (c : Config) :
    c.getValue Ty.bool "app.debug" false = debugEnabled c := by
  unfold debugEnabled Config.getValue
  cases h : c.find "app.debug" with
  | none => simp
  | some e =>
    obtain ⟨k, v⟩ := e
    have hk : k = "app.debug" := findEntry_key "app.debug" c.m_settings (k, v) h
    subst hk
    cases v with
    | bool b => cases b <;> simp [get_if]
    | int i => simp [get_if]
    | float f => simp [get_if]
    | string t => simp [get_if]

theorem App.run_eq (env : Env) (app : App) (w : World) :
    App.run env app w =
      (app, w.logAll env.writable (runRecords app.m_name (debugEnabled w.config) env.elapsed)) := by
  unfold App.run
  simp only [LOG_INFO, LOG_DEBUG, world_log_config, getValue_debug]
  cases debugEnabled w.config <;> rfl

theorem App.initialize_raise (env : Env) (app : App) (w : World) (c : Config) (e : Exn)
    (h : env.loadFromFile "config.json" w.config = (c, some e)) :
    App.initialize env app w =
      (Except.error e,
       { w.log env.writable LogLevel.Info "Initializing application..." with config := c }) := by
  unfold App.initialize
  simp only [LOG_INFO, world_log_config, h]

theorem App.initialize_ok (env : Env) (app : App) (w : World) (c : Config)
    (h : env.loadFromFile "config.json" w.config = (c, none)) :
    App.initialize env app w =
      (Except.ok ⟨c.getValue Ty.string "app.name" "ProfessionalCppProject"⟩,
       World.log env.writable
         { config := c
           logger :=
             (w.log env.writable LogLevel.Info "Initializing application...").logger.setLogFile
               env.openable "app.log"
           io := (w.log env.writable LogLevel.Info "Initializing application...").io }
         LogLevel.Info "Application initialized successfully") := by
  unfold App.initialize
  simp only [LOG_INFO, world_log_config, h]

theorem mainCatch_eq (e : Exn) (w : World) :
    (mainCatch e w).1 = 1 ∧ (mainCatch e w).2.io.cerr = w.io.cerr ++ fatalReport e ∧
    (mainCatch e w).2.io.cout = w.io.cout := by
  cases e <;> simp [mainCatch, fatalReport, String.append_assoc]

/-- C8: the log records of `run()` are, in order: Info `Running application: n`;
Debug `Debug mode is enabled` exactly when the store holds the boolean `true`
under `app.debug`; Info `Processing iteration i` for i = 1, 2, 3, 4, 5; Info
`Application ran for <d>ms`.  The store, standard error and the display name
are left as they were. -/
theorem run_records (env : Env) (app : App) (w : World) :
    App.run env app w =
      (app, w.logAll env.writable (runRecords app.m_name (debugEnabled w.config) env.elapsed)) ∧
    (debugEnabled w.config = true ↔
      w.config.find "app.debug" = some ("app.debug", Value.bool true)) ∧
    (App.run env app w).2.io.cout =
      w.io.cout ++ render (runRecords app.m_name (debugEnabled w.config) env.elapsed) ∧
    (App.run env app w).2.config = w.config ∧
    (App.run env app w).2.io.cerr = w.io.cerr ∧
    (App.run env app w).1 = app := by
  rw [App.run_eq]
  refine ⟨rfl, ?_, world_logAll_cout _ _ _, world_logAll_config _ _ _, world_logAll_cerr _ _ _, rfl⟩
  unfold debugEnabled
  exact decide_eq_true_iff

/-- C8 at a concrete input: the store holds the integer 1 under `app.debug`, the
display name is `demo` and 5003 ms were measured; no debug line is logged. -/
theorem run_records_witness :
    (App.run ⟨fun _ => false, fun _ _ _ => true, fun _ c => (c, none), fun _ _ => none, 5003⟩ ⟨"demo"⟩
      ⟨Config.empty.setValue "app.debug" (Value.int 1), {}, ⟨"", "", []⟩⟩).2.io.cout =
      "[INFO] Running application: demo\n[INFO] Processing iteration 1\n[INFO] Processing iteration 2\n[INFO] Processing iteration 3\n[INFO] Processing iteration 4\n[INFO] Processing iteration 5\n[INFO] Application ran for 5003ms\n" :=
  (run_records ⟨fun _ => false, fun _ _ _ => true, fun _ c => (c, none), fun _ _ => none, 5003⟩ ⟨"demo"⟩
    ⟨Config.empty.setValue "app.debug" (Value.int 1), {}, ⟨"", "", []⟩⟩).2.2.1.trans
    rfl

/-- C9: when `loadFromFile("config.json")` returns, `initialize()` returns with
the display name `getValue<std::string>("app.name", "ProfessionalCppProject")`
of the store that `loadFromFile` left: the stored text when `app.name` holds a
text, the default otherwise; with `app.name` absent the application is as a
freshly constructed one. -/
theorem initialize_name (env : Env) (app : App) (w : World)
    (h : (env.loadFromFile "config.json" w.config).2 = none) :
    ( App.initialize env app w).1 =
      Except.ok ⟨(env.loadFromFile "config.json" w.config).1.getValue Ty.string "app.name"
        "ProfessionalCppProject"⟩ ∧
    ( App.initialize env app w).2.config = (env.loadFromFile "config.json" w.config).1 ∧
    (env.loadFromFile "config.json" w.config).1.getValue Ty.string "app.name"
        "ProfessionalCppProject" =
      (match (env.loadFromFile "config.json" w.config).1.find "app.name" with
        | some (_, Value.string t) => t
        | _ => "ProfessionalCppProject") ∧
    ((env.loadFromFile "config.json" w.config).1.find "app.name" = none →
      ( App.initialize env app w).1 = Except.ok {}) := by
  rcases hl : env.loadFromFile "config.json" w.config with ⟨c, oe⟩
  rw [hl] at h
  simp only at h
  subst h
  rw [App.initialize_ok env app w c hl]
  refine ⟨rfl, rfl, ?_, ?_⟩
  · unfold Config.getValue
    cases hf : c.find "app.name" with
    | none => rfl
    | some e =>
      obtain ⟨k, v⟩ := e
      cases v <;> rfl
  · intro hf
    simp only [Config.getValue, hf]

/-- C9 at a concrete input: no configuration file, so loading leaves the empty
store as it is; the display name is the default. -/
theorem initialize_name_witness :
    ( App.initialize ⟨fun _ => true, fun _ _ _ => true, fun _ c => (c, none), fun _ _ => none, 5000⟩ ⟨"x"⟩
      ⟨Config.empty, {}, ⟨"", "", []⟩⟩).1 = Except.ok ⟨"ProfessionalCppProject"⟩ :=
  (initialize_name ⟨fun _ => true, fun _ _ _ => true, fun _ c => (c, none), fun _ _ => none, 5000⟩ ⟨"x"⟩
    ⟨Config.empty, {}, ⟨"", "", []⟩⟩ rfl).1.trans rfl

theorem App.shutdown_raise (env : Env) (app : App) (w : World) (e : Exn)
    (h : env.saveToFile "config.json" w.config = some e) :
    App.shutdown env app w =
      (Except.error e, w.log env.writable LogLevel.Info "Shutting down application...") := by
  unfold App.shutdown
  simp only [LOG_INFO, world_log_config, h]

theorem App.shutdown_ok (env : Env) (app : App) (w : World)
    (h : env.saveToFile "config.json" w.config = none) :
    App.shutdown env app w =
      (Except.ok app, (w.log env.writable LogLevel.Info "Shutting down application...").log env.writable LogLevel.Info
        "Application shutdown complete") := by
  unfold App.shutdown
  simp only [LOG_INFO, world_log_config, h]

theorem main_of_load_raise (env : Env) (w : World) (c : Config) (e : Exn)
    (h : env.loadFromFile "config.json" w.config = (c, some e)) :
    main env w =
      mainCatch e { w.log env.writable LogLevel.Info "Initializing application..." with config := c } := by
  simp only [main, mainTry, App.initialize_raise env {} w c e h]

theorem beforeShutdown_config (env : Env) (w : World) (c : Config) :
    (beforeShutdown env w c).config = c := by
  unfold beforeShutdown
  rw [world_logAll_config, world_log_config]

theorem beforeShutdown_cerr (env : Env) (w : World) (c : Config) :
    (beforeShutdown env w c).io.cerr = w.io.cerr := by
  unfold beforeShutdown
  rw [world_logAll_cerr, world_log_cerr]
  exact world_log_cerr _ w _ _

theorem beforeShutdown_cout (env : Env) (w : World) (c : Config) :
    (beforeShutdown env w c).io.cout =
      w.io.cout ++ "[INFO] Initializing application...\n" ++
        "[INFO] Application initialized successfully\n" ++
        render (runRecords (c.getValue Ty.string "app.name" "ProfessionalCppProject")
          (debugEnabled c) env.elapsed) := by
  unfold beforeShutdown
  rw [world_logAll_cout, world_log_cout]
  show (w.log env.writable LogLevel.Info "Initializing application...").io.cout ++ _ ++ _ = _
  rw [world_log_cout]
  rfl

theorem main_of_save_raise (env : Env) (w : World) (c : Config) (e : Exn)
    (h : env.loadFromFile "config.json" w.config = (c, none))
    (hs : env.saveToFile "config.json" c = some e) :
    main env w =
      mainCatch e ((beforeShutdown env w c).log env.writable LogLevel.Info "Shutting down application...") := by
  simp only [main, mainTry, App.initialize_ok env {} w c h, App.run_eq, world_log_config]
  have hs2 : env.saveToFile "config.json" (beforeShutdown env w c).config = some e := by
    rw [beforeShutdown_config]
    exact hs
  have h3 := App.shutdown_raise env
    ⟨c.getValue Ty.string "app.name" "ProfessionalCppProject"⟩ (beforeShutdown env w c) e hs2
  unfold beforeShutdown at h3
  rw [h3]
  rfl

theorem main_of_success (env : Env) (w : World) (c : Config)
    (h : env.loadFromFile "config.json" w.config = (c, none))
    (hs : env.saveToFile "config.json" c = none) :
    main env w =
      (0, ((beforeShutdown env w c).log env.writable LogLevel.Info "Shutting down application...").log
        env.writable LogLevel.Info "Application shutdown complete") := by
  simp only [main, mainTry, App.initialize_ok env {} w c h, App.run_eq, world_log_config]
  have hs2 : env.saveToFile "config.json" (beforeShutdown env w c).config = none := by
    rw [beforeShutdown_config]
    exact hs
  have h3 := App.shutdown_ok env
    ⟨c.getValue Ty.string "app.name" "ProfessionalCppProject"⟩ (beforeShutdown env w c) hs2
  unfold beforeShutdown at h3
  rw [h3]
  rfl

/-- C7: `main` runs `initialize`, `run`, `shutdown` in that order and returns 0
exactly when none of them exits by an exception; otherwise it returns 1.  When
`initialize` exits by an exception `e`, neither `run` nor `shutdown` logs
anything and the report of `e` is what is written to standard error; when
`shutdown` exits by `e`, the log lines of `initialize` and `run` precede its
first line and the report of `e` is written; on success nothing is written to
standard error and the log lines are those of the three steps, in order.
(`run` has no statement that exits by an exception.) -/
theorem main_lifecycle (env : Env) (w : World) :
    ((main env w).1 = 0 ↔
      (env.loadFromFile "config.json" w.config).2 = none ∧
      env.saveToFile "config.json" (env.loadFromFile "config.json" w.config).1 = none) ∧
    ((main env w).1 = 0 ∨ (main env w).1 = 1) ∧
    (∀ e, (env.loadFromFile "config.json" w.config).2 = some e →
      (main env w).1 = 1 ∧
      (main env w).2.io.cerr = w.io.cerr ++ fatalReport e ∧
      (main env w).2.io.cout = w.io.cout ++ "[INFO] Initializing application...\n") ∧
    ((env.loadFromFile "config.json" w.config).2 = none →
      ∀ e, env.saveToFile "config.json" (env.loadFromFile "config.json" w.config).1 = some e →
      (main env w).1 = 1 ∧
      (main env w).2.io.cerr = w.io.cerr ++ fatalReport e ∧
      (main env w).2.io.cout =
        w.io.cout ++ "[INFO] Initializing application...\n" ++
          "[INFO] Application initialized successfully\n" ++
          render (runRecords
            ((env.loadFromFile "config.json" w.config).1.getValue Ty.string "app.name"
              "ProfessionalCppProject")
            (debugEnabled (env.loadFromFile "config.json" w.config).1) env.elapsed) ++
          "[INFO] Shutting down application...\n") ∧
    ((env.loadFromFile "config.json" w.config).2 = none →
      env.saveToFile "config.json" (env.loadFromFile "config.json" w.config).1 = none →
      (main env w).2.io.cerr = w.io.cerr ∧
      (main env w).2.io.cout =
        w.io.cout ++ "[INFO] Initializing application...\n" ++
          "[INFO] Application initialized successfully\n" ++
          render (runRecords
            ((env.loadFromFile "config.json" w.config).1.getValue Ty.string "app.name"
              "ProfessionalCppProject")
            (debugEnabled (env.loadFromFile "config.json" w.config).1) env.elapsed) ++
          "[INFO] Shutting down application...\n" ++
          "[INFO] Application shutdown complete\n") := by
  rcases hl : env.loadFromFile "config.json" w.config with ⟨c, oe⟩
  cases oe with
  | some e =>
    have hm := main_of_load_raise env w c e hl
    have hc := mainCatch_eq e
      { w.log env.writable LogLevel.Info "Initializing application..." with config := c }
    rw [← hm] at hc
    obtain ⟨h1, h2, h3⟩ := hc
    have h4 : (main env w).2.io.cout = w.io.cout ++ "[INFO] Initializing application...\n" := by
      rw [h3]
      exact world_log_cout _ w _ _
    have h5 : (main env w).2.io.cerr = w.io.cerr ++ fatalReport e := by
      rw [h2]
      exact congrArg (· ++ fatalReport e) (world_log_cerr _ w _ _)
    refine ⟨?_, Or.inr h1, ?_, ?_, ?_⟩
    · simp [h1]
    · intro e2 he2
      simp only [Option.some.injEq] at he2
      subst he2
      exact ⟨h1, h5, h4⟩
    · intro hn
      simp at hn
    · intro hn
      simp at hn
  | none =>
    cases hs : env.saveToFile "config.json" c with
    | some e =>
      have hm := main_of_save_raise env w c e hl hs
      have hc := mainCatch_eq e
        ((beforeShutdown env w c).log env.writable LogLevel.Info "Shutting down application...")
      rw [← hm] at hc
      obtain ⟨h1, h2, h3⟩ := hc
      rw [world_log_cerr, beforeShutdown_cerr] at h2
      rw [world_log_cout, beforeShutdown_cout] at h3
      refine ⟨?_, Or.inr h1, ?_, ?_, ?_⟩
      · simp [h1]
      · intro e2 he2
        simp at he2
      · intro _ e2 he2
        simp only [Option.some.injEq] at he2
        subst he2
        exact ⟨h1, h2, h3⟩
      · intro _ hn
        simp at hn
    | none =>
      have hm := main_of_success env w c hl hs
      have h1 : (main env w).1 = 0 := by rw [hm]
      have h2 : (main env w).2.io.cerr = w.io.cerr := by
        rw [hm]
        show (World.log _ _ _ _).io.cerr = _
        rw [world_log_cerr, world_log_cerr, beforeShutdown_cerr]
      refine ⟨?_, Or.inl h1, ?_, ?_, ?_⟩
      · simp [h1]
      · intro e2 he2
        simp at he2
      · intro _ e2 he2
        simp at he2
      · intro _ _
        refine ⟨h2, ?_⟩
        rw [hm]
        show (World.log _ _ _ _).io.cout = _
        rw [world_log_cout, world_log_cout, beforeShutdown_cout]
        rfl

/-- C7 at a concrete input: `loadFromFile` exits by a `std::exception` whose
message is `bad config`; the exit code is 1, the report is the `Fatal error:`
line, and the only log line is the first one of `initialize`. -/
theorem main_lifecycle_witness :
    (main ⟨fun _ => true, fun _ _ _ => true,
        fun _ c => (c, some (Exn.exception "bad config")),
        fun _ _ => none, 5000⟩ ⟨Config.empty, {}, ⟨"", "", []⟩⟩).1 = 1 ∧
    (main ⟨fun _ => true, fun _ _ _ => true,
        fun _ c => (c, some (Exn.exception "bad config")),
        fun _ _ => none, 5000⟩ ⟨Config.empty, {}, ⟨"", "", []⟩⟩).2.io.cerr =
      "Fatal error: bad config\n" ∧
    (main ⟨fun _ => true, fun _ _ _ => true,
        fun _ c => (c, some (Exn.exception "bad config")),
        fun _ _ => none, 5000⟩ ⟨Config.empty, {}, ⟨"", "", []⟩⟩).2.io.cout =
      "[INFO] Initializing application...\n" :=
  ⟨((main_lifecycle ⟨fun _ => true, fun _ _ _ => true,
        fun _ c => (c, some (Exn.exception "bad config")),
        fun _ _ => none, 5000⟩ ⟨Config.empty, {}, ⟨"", "", []⟩⟩).2.2.1
      (Exn.exception "bad config") rfl).1,
   ((main_lifecycle ⟨fun _ => true, fun _ _ _ => true,
        fun _ c => (c, some (Exn.exception "bad config")),
        fun _ _ => none, 5000⟩ ⟨Config.empty, {}, ⟨"", "", []⟩⟩).2.2.1
      (Exn.exception "bad config") rfl).2.1.trans rfl,
   ((main_lifecycle ⟨fun _ => true, fun _ _ _ => true,
        fun _ c => (c, some (Exn.exception "bad config")),
        fun _ _ => none, 5000⟩ ⟨Config.empty, {}, ⟨"", "", []⟩⟩).2.2.1
      (Exn.exception "bad config") rfl).2.2.trans rfl⟩

end core
